import Mathlib

/-!
Verification model of `src/vgt_inference/ditod/imagelist.py`.

The file defines a shallow embedding of the `ImageList` container, its
builder `ImageList.from_tensors`, the accessor `__getitem__`, the device
transfer `to`, and the helper `create_attention_mask`, and proves the
specification claims about them.

Modelling conventions:
- a tensor of shape `(C_1, ..., C_K, H, W)` is represented with its leading
  dimensions kept as a list (used by the builder's shape assertion) and its
  data addressed by a flattened leading index `c < lead.prod` plus spatial
  coordinates; float values are represented by rationals;
- the padded batch tensor is a concrete nested list `N x C x H x W`;
- Python exceptions become an `Except` error value; the distinct failure
  points of the source (the two asserts, the `copy_` of an image into a
  smaller slice, `avg_pool2d` on an input smaller than its kernel,
  `torch.stack` of an empty list) get distinct error tags;
- `torch.jit` tracing/scripting branches are ignored (eager mode only).
-/

namespace VGT

/-- An input image tensor of shape `(C_1, ..., C_K, H, W)` with `K >= 0`.
`lead` is the list of leading dimensions `(C_1, ..., C_K)` (compared between
images by the builder's shape assertion); a pixel is addressed by a
flattened leading index `c < lead.prod` and spatial coordinates `y < h`,
`x < w`. `dev` is an abstract device tag. -/
structure Img where
  lead : List Nat
  h : Nat
  w : Nat
  pix : Nat → Nat → Nat → ℚ
  dev : Nat

/-- The optional `padding_constraints` dict of `ImageList.from_tensors`;
either key may be absent, matching `dict.get` / `in` tests of the source. -/
structure PaddingConstraints where
  size_divisibility : Option Int
  square_size : Option Int
deriving DecidableEq

/-- The keyword arguments of `ImageList.from_tensors`
(`size_divisibility = 0`, `pad_value = 0.0`, `padding_constraints = None`
are the source's defaults). -/
structure Config where
  size_divisibility : Int
  pad_value : ℚ
  padding_constraints : Option PaddingConstraints
deriving DecidableEq

/-- Failure modes of the builder. `invalidArgument` is the
`assert len(tensors) > 0`, `shapeMismatch` the
`assert t.shape[:-2] == tensors[0].shape[:-2]`, `copyError` the runtime
error of `copy_` when an image does not fit its destination slice,
`poolError` the runtime error of `avg_pool2d` when the pooled output would
be empty, `stackError` the runtime error of `torch.stack([])`. -/
inductive BuildErr where
  | invalidArgument
  | shapeMismatch
  | copyError
  | poolError
  | stackError
deriving DecidableEq

/-- Failure mode of `ImageList.__getitem__`: the `IndexError` raised by
Python list indexing. -/
inductive GetErr where
  | indexOutOfRange
deriving DecidableEq

/-- The `ImageList` container: `tensor` is the padded batch of shape
`(N, C, Hmax, Wmax)` as nested lists (leading image dims flattened to one
axis of size `lead.prod`), `padding_mask` the stacked attention-mask rows,
`image_sizes` the original `(h, w)` pairs, `dev` the device tag. -/
structure ImageList where
  tensor : List (List (List (List ℚ)))
  padding_mask : List (List ℚ)
  image_sizes : List (Nat × Nat)
  dev : Nat
deriving DecidableEq, Inhabited

instance {ε α : Type _} [DecidableEq ε] [DecidableEq α] :
    DecidableEq (Except ε α) := fun x y =>
  match x, y with
  | .error a, .error b =>
      if h : a = b then .isTrue (congrArg Except.error h)
      else .isFalse fun hx => h (Except.error.inj hx)
  | .error _, .ok _ => .isFalse fun hx => Except.noConfusion hx
  | .ok _, .error _ => .isFalse fun hx => Except.noConfusion hx
  | .ok a, .ok b =>
      if h : a = b then .isTrue (congrArg Except.ok h)
      else .isFalse fun hx => h (Except.ok.inj hx)

/-- `torch.stack(image_sizes_tensor).max(0).values` : componentwise max,
one component at a time (0 for the impossible empty case). -/
def listMax (l : List Nat) : Nat := l.foldr max 0

/-- `(m + (s - 1)).div(s, rounding_mode="floor") * s` on a nonnegative
value: round `m` up to the next multiple of `s` (floor division on
nonnegative operands coincides with `Nat` division). -/
def ceilMul (m s : Nat) : Nat := (m + (s - 1)) / s * s

/-- The effective `size_divisibility`: the `padding_constraints` entry
overrides the function argument when the key is present. -/
def effDiv (cfg : Config) : Int :=
  match cfg.padding_constraints with
  | some pc => pc.size_divisibility.getD cfg.size_divisibility
  | none => cfg.size_divisibility

/-- `padding_constraints.get("square_size", 0)`, or 0 when no constraints
dict is given. -/
def squareOf (cfg : Config) : Int :=
  match cfg.padding_constraints with
  | some pc => pc.square_size.getD 0
  | none => 0

/-- The `if size_divisibility > 1` rounding step of `from_tensors`, applied
to one component of `max_size`. -/
def roundIfDiv (cfg : Config) (m : Nat) : Nat :=
  if 1 < effDiv cfg then ceilMul m (effDiv cfg).toNat else m

/-- The target spatial size computed by `from_tensors`: componentwise max
of the images' spatial sizes, overwritten by `square_size` when positive,
then each component rounded up to a multiple of the effective
`size_divisibility` when that is `> 1` (note: the source applies the
divisibility rounding also after a square override, there is no `else`). -/
def targetSize (ts : List Img) (cfg : Config) : Nat × Nat :=
  let maxH := listMax (ts.map Img.h)
  let maxW := listMax (ts.map Img.w)
  let sq := squareOf cfg
  let base := if 0 < sq then (sq.toNat, sq.toNat) else (maxH, maxW)
  (roundIfDiv cfg base.1, roundIfDiv cfg base.2)

/-- One cell of the padded validity map of an image of size `(h, w)`:
`torch.ones((h, w))` padded on bottom/right with 0. -/
def validity (h w y x : Nat) : ℚ := if y < h ∧ x < w then 1 else 0

/-- The mean computed by `avg_pool2d(kernel_size=p)` for the block with
grid coordinates `(bi, bj)` of the padded validity map: the sum of the
`p * p` cells of the block divided by the kernel area. -/
def blockMean (h w p bi bj : Nat) : ℚ :=
  (((List.range p).map fun dy =>
      ((List.range p).map fun dx =>
        validity h w (bi * p + dy) (bj * p + dx)).sum).sum) / (p * p : ℕ)

/-- One row of the attention mask for an image of size `(h, w)` against the
padded target `(H, W)`: threshold each pooled block mean at `> 0`, flatten
the `(H / p) x (W / p)` grid row-major (`view(-1)` puts grid cell
`(k / wb, k % wb)` at position `k`), prepend the constant 1, and map
validity `v` to the additive mask value `(1 - v) * (-1e6)`. -/
def maskRow (h w H W p : Nat) : List ℚ :=
  let hb := H / p
  let wb := W / p
  let pooled := (List.range (hb * wb)).map fun k =>
    if 0 < blockMean h w p (k / wb) (k % wb) then (1 : ℚ) else 0
  ((1 : ℚ) :: pooled).map fun v => (1 - v) * (-1000000)

/-- `create_attention_mask(tensors, max_size, patch_size)`. `avg_pool2d`
fails when the kernel is 0 or larger than the padded input
(`poolError`); `torch.stack` of an empty mask list fails (`stackError`). -/
def create_attention_mask (ts : List Img) (H W p : Nat) :
    Except BuildErr (List (List ℚ)) :=
  if p = 0 ∨ H < p ∨ W < p then
    if ts.isEmpty then .error .stackError else .error .poolError
  else if ts.isEmpty then .error .stackError
  else .ok (ts.map fun im => maskRow im.h im.w H W p)

/-- `F.pad(tensors[0], [0, W - w, 0, H - h], value=v)` of the single-image
fast path: bottom/right padding with `v`; a negative padding amount crops,
so the output is always `(H, W)` and cell `(y, x)` holds the pixel iff
`y < h` and `x < w`. -/
def padSingle (im : Img) (H W : Nat) (v : ℚ) : List (List (List ℚ)) :=
  (List.range im.lead.prod).map fun c =>
    (List.range H).map fun y =>
      (List.range W).map fun x =>
        if y < im.h ∧ x < im.w then im.pix c y x else v

/-- One slot of the general path's batched tensor: `new_full` with `v`,
then `batched_imgs[i, ..., :h, :w].copy_(img)` — Python slicing clamps the
destination to `(min h H, min w W)`, so exactly that region holds pixels. -/
def padGeneral (im : Img) (H W : Nat) (v : ℚ) : List (List (List ℚ)) :=
  (List.range im.lead.prod).map fun c =>
    (List.range H).map fun y =>
      (List.range W).map fun x =>
        if y < min im.h H ∧ x < min im.w W then im.pix c y x else v

/-- Whether `copy_` of an `(h, w)` image into the clamped destination slice
`(min h H, min w W)` succeeds: each source dim must equal the destination
dim or be 1 (broadcast). -/
def copyOk (im : Img) (H W : Nat) : Bool :=
  (decide (im.h = min im.h H) || decide (im.h = 1)) &&
    (decide (im.w = min im.w W) || decide (im.w = 1))

/-- The `len(tensors) == 1` fast path of `from_tensors`: pad the single
image, `unsqueeze_(0)`, and compute the mask (an exception in
`create_attention_mask` aborts the call). -/
def singleCore (t0 : Img) (H W : Nat) (pv : ℚ) : Except BuildErr ImageList :=
  match create_attention_mask [t0] H W 16 with
  | .error e => .error e
  | .ok m => .ok ⟨[padSingle t0 H W pv], m, [(t0.h, t0.w)], t0.dev⟩

/-- The general (multi-image) path of `from_tensors`: `new_full` the batch
tensor, `copy_` each image into its slice (failing first, before the mask,
when some image does not fit), then compute the mask. -/
def generalCore (ts : List Img) (H W : Nat) (pv : ℚ) (dv : Nat) :
    Except BuildErr ImageList :=
  if ts.all fun im => copyOk im H W then
    match create_attention_mask ts H W 16 with
    | .error e => .error e
    | .ok m => .ok ⟨ts.map fun im => padGeneral im H W pv, m,
        ts.map fun im => (im.h, im.w), dv⟩
  else .error .copyError

/-- `ImageList.from_tensors(tensors, size_divisibility, pad_value,
padding_constraints)`: assert nonempty, assert equal leading dims, compute
the target size, then take the single-image fast path or the general
path. The mask patch size is the default 16 (the source never passes
`patch_size`). -/
def ImageList.from_tensors (ts : List Img) (cfg : Config) :
    Except BuildErr ImageList :=
  match ts with
  | [] => .error .invalidArgument
  | t0 :: rest =>
    if ts.all fun t => t.lead == t0.lead then
      if rest.isEmpty then
        singleCore t0 (targetSize ts cfg).1 (targetSize ts cfg).2 cfg.pad_value
      else
        generalCore ts (targetSize ts cfg).1 (targetSize ts cfg).2
          cfg.pad_value t0.dev
    else .error .shapeMismatch

/-- `self.tensor[e, ..., : size[0], : size[1]]` for an already-normalized
nonnegative index `e`: Python slices clamp at the actual extent, which
`List.take` mirrors. -/
def sliceAt (b : ImageList) (e : Nat) : List (List (List ℚ)) :=
  let size := b.image_sizes.getD e (0, 0)
  (b.tensor.getD e []).map fun ch =>
    (ch.take size.1).map fun row => row.take size.2

/-- `ImageList.__getitem__(idx)` for an integer index: Python list indexing
raises `IndexError` outside `[-N, N)` and interprets a negative index `i`
as `N + i`. -/
def ImageList.getitem (b : ImageList) (idx : Int) :
    Except GetErr (List (List (List ℚ))) :=
  if idx < -(b.image_sizes.length : Int) ∨
      (b.image_sizes.length : Int) ≤ idx then
    .error .indexOutOfRange
  else
    .ok (sliceAt b
      (if idx < 0 then idx + (b.image_sizes.length : Int) else idx).toNat)

/-- `ImageList.to(*args)` for a device transfer: a new `ImageList` whose
tensor holds the same values on the target device, with `padding_mask` and
`image_sizes` passed through unchanged. -/
def ImageList.to (b : ImageList) (d : Nat) : ImageList :=
  ⟨b.tensor, b.padding_mask, b.image_sizes, d⟩

/-- The data of an input image as a nested `C x h x w` list (what an exact
pad/crop round trip must return). -/
def imgData (im : Img) : List (List (List ℚ)) :=
  (List.range im.lead.prod).map fun c =>
    (List.range im.h).map fun y =>
      (List.range im.w).map fun x => im.pix c y x

/-- The full shape of an image: leading dims and spatial extent (pixel
values excluded). -/
def shapeOf (im : Img) : List Nat × Nat × Nat := (im.lead, im.h, im.w)

/-- The last two dimensions of a (rectangular) batched 4-level tensor are
`(H, W)`. -/
def isRect4 (t : List (List (List (List ℚ)))) (H W : Nat) : Prop :=
  ∀ img ∈ t, ∀ ch ∈ img, ch.length = H ∧ ∀ row ∈ ch, row.length = W

/-- No square-padding constraint is in force. -/
def noSquare (cfg : Config) : Prop := squareOf cfg ≤ 0

/-- The builder's leading-dimension assertion, as a predicate on the input
list. -/
def leadOK : List Img → Bool
  | [] => true
  | t0 :: rest => (t0 :: rest).all fun t => t.lead == t0.lead

/-- Shape-level replay of `copyOk`: whether `copy_` succeeds, computed from
an image's shape alone. -/
def copyOkS (s : List Nat × Nat × Nat) (H W : Nat) : Bool :=
  (decide (s.2.1 = min s.2.1 H) || decide (s.2.1 = 1)) &&
    (decide (s.2.2 = min s.2.2 W) || decide (s.2.2 = 1))

/-- Shape-level replay of `create_attention_mask`, computed from the input
shapes alone. -/
def camS (ss : List (List Nat × Nat × Nat)) (H W p : Nat) :
    Except BuildErr (List (List ℚ)) :=
  if p = 0 ∨ H < p ∨ W < p then
    if ss.isEmpty then .error .stackError else .error .poolError
  else if ss.isEmpty then .error .stackError
  else .ok (ss.map fun s => maskRow s.2.1 s.2.2 H W p)

/-- Shape-level replay of `targetSize`, computed from the input shapes
alone. -/
def targetSizeS (ss : List (List Nat × Nat × Nat)) (cfg : Config) : Nat × Nat :=
  let maxH := listMax (ss.map fun s => s.2.1)
  let maxW := listMax (ss.map fun s => s.2.2)
  let sq := squareOf cfg
  let base := if 0 < sq then (sq.toNat, sq.toNat) else (maxH, maxW)
  (roundIfDiv cfg base.1, roundIfDiv cfg base.2)

/-- Shape-level replay of the mask component of `from_tensors`: the whole
mask pipeline of the builder, computed from the input shapes alone (used to
state that the produced mask cannot depend on pixel values). -/
def maskFromShapes (ss : List (List Nat × Nat × Nat)) (cfg : Config) :
    Except BuildErr (List (List ℚ)) :=
  match ss with
  | [] => .error .invalidArgument
  | s0 :: rest =>
    if ss.all fun s => s.1 == s0.1 then
      if rest.isEmpty then camS [s0] (targetSizeS ss cfg).1 (targetSizeS ss cfg).2 16
      else
        if ss.all fun s => copyOkS s (targetSizeS ss cfg).1 (targetSizeS ss cfg).2 then
          camS ss (targetSizeS ss cfg).1 (targetSizeS ss cfg).2 16
        else .error .copyError
    else .error .shapeMismatch

/-- A concrete 16x16 single-channel image (flattened leading dims empty,
pixel `(y, x)` holds `16 * y + x`). -/
def demoImg : Img := ⟨[], 16, 16, fun _ y x => ((y * 16 + x : ℕ) : ℚ), 0⟩

/-- A second 16x16 image with the same shape as `demoImg` but different
pixel values. -/
def demoImg2 : Img := ⟨[], 16, 16, fun _ _ _ => 7, 0⟩

/-- The builder's default configuration: `size_divisibility = 0`,
`pad_value = 0.0`, no padding constraints. -/
def demoCfg : Config := ⟨0, 0, none⟩

/-- A concrete single-image input list. -/
def demoTs : List Img := [demoImg]

/-- The batch built from `demoTs` with the default configuration. -/
def demoBatch : ImageList :=
  match ImageList.from_tensors demoTs demoCfg with
  | .ok b => b
  | .error _ => default

/-- A configuration with `square_size = 32` and function-level
`size_divisibility = 5` (the constraints dict has no `size_divisibility`
key, so the argument stays in force). -/
def cfgSq32Div5 : Config := ⟨5, 0, some ⟨none, some 32⟩⟩

/-- The batch built from `demoTs` under `cfgSq32Div5`. -/
def batchSq32Div5 : ImageList :=
  match ImageList.from_tensors demoTs cfgSq32Div5 with
  | .ok b => b
  | .error _ => default

/-- A concrete 20x20 single-channel image. -/
def im20 : Img := ⟨[], 20, 20, fun _ y x => ((y * 20 + x : ℕ) : ℚ), 0⟩

/-- A configuration whose only constraint is `square_size = 16`: the target
size it forces is smaller than `im20`. -/
def cfgSq16 : Config := ⟨0, 0, some ⟨none, some 16⟩⟩

/-- A concrete 10x10 image: smaller than the fixed mask patch size 16. -/
def tiny : Img := ⟨[], 10, 10, fun _ _ _ => 1, 0⟩

/-- The spatial shape `(H, W)` of the first slot of a built batch tensor
(the length of its first channel, and of that channel's first row). -/
def spatialDims (b : ImageList) : Nat × Nat :=
  (((b.tensor.getD 0 []).getD 0 []).length,
   (((b.tensor.getD 0 []).getD 0 []).getD 0 []).length)

/-- `List.all` after a `map` folds the mapped function into the predicate
(general-type version). -/
theorem all_map_eq {α β : Type _} (f : α → β) (p : β → Bool) (l : List α) :
    (l.map f).all p = l.all fun a => p (f a) := by
  induction l with
  | nil => rfl
  | cons a t ih => simp only [List.map_cons, List.all_cons, ih]

/-- The padded cell formulas of the fast path (`F.pad`) and of the general
path (`new_full` + clamped-slice `copy_`) agree everywhere on the target
grid: inside the grid, `y < min h H` is the same test as `y < h`. -/
theorem padSingle_eq_padGeneral (im : Img) (H W : Nat) (v : ℚ) :
    padSingle im H W v = padGeneral im H W v := by
  unfold padSingle padGeneral
  refine List.map_congr_left fun c _ => ?_
  refine List.map_congr_left fun y hy => ?_
  refine List.map_congr_left fun x hx => ?_
  rw [List.mem_range] at hy hx
  refine if_congr ?_ rfl rfl
  rw [Nat.lt_min, Nat.lt_min]
  constructor
  · intro h
    exact ⟨⟨h.1, hy⟩, h.2, hx⟩
  · intro h
    exact ⟨h.1.1, h.2.1⟩

/-- Every slot of the general path's batched tensor is an `H x W`
rectangle (its last two dimensions are the target size). -/
theorem isRect4_map_padGeneral (ts : List Img) (H W : Nat) (v : ℚ) :
    isRect4 (ts.map fun im => padGeneral im H W v) H W := by
  intro img himg ch hch
  obtain ⟨im, _, rfl⟩ := List.mem_map.mp himg
  unfold padGeneral at hch
  obtain ⟨c, _, rfl⟩ := List.mem_map.mp hch
  refine ⟨by simp, fun row hrow => ?_⟩
  obtain ⟨y, _, rfl⟩ := List.mem_map.mp hrow
  simp

/-- The mask row of an image has one entry per block of the pooled grid
plus the prepended always-valid token. -/
theorem maskRow_length (h w H W p : Nat) :
    (maskRow h w H W p).length = 1 + (H / p) * (W / p) := by
  simp [maskRow, Nat.add_comm]

/-- The entry of a mask row at the prepended position is
`(1 - 1) * (-1e6) = 0`. -/
theorem maskRow_headD (h w H W p : Nat) : (maskRow h w H W p).getD 0 0 = 0 := by
  unfold maskRow
  simp only [List.map_cons, List.getD_cons_zero]
  norm_num

/-- A sum of nonnegative rationals is positive exactly when some summand
is. -/
theorem sum_pos_iff_exists (l : List ℚ) (hn : ∀ x ∈ l, 0 ≤ x) :
    0 < l.sum ↔ ∃ x ∈ l, 0 < x := by
  induction l with
  | nil => simp
  | cons a t ih =>
    have ha : 0 ≤ a := hn a (by simp)
    have ht : ∀ x ∈ t, 0 ≤ x := fun x hx => hn x (by simp [hx])
    have hts : 0 ≤ t.sum := List.sum_nonneg ht
    simp only [List.sum_cons, List.mem_cons]
    constructor
    · intro hpos
      rcases ha.lt_or_eq with h1 | h1
      · exact ⟨a, Or.inl rfl, h1⟩
      · rcases hts.lt_or_eq with h2 | h2
        · obtain ⟨x, hx, hx2⟩ := (ih ht).mp h2
          exact ⟨x, Or.inr hx, hx2⟩
        · rw [← h1, ← h2] at hpos
          simp at hpos
    · rintro ⟨x, hx | hx, hpos⟩
      · exact add_pos_of_pos_of_nonneg (hx ▸ hpos) hts
      · exact add_pos_of_nonneg_of_pos ha ((ih ht).mpr ⟨x, hx, hpos⟩)

/-- A validity cell is nonnegative. -/
theorem validity_nonneg (h w y x : Nat) : 0 ≤ validity h w y x := by
  unfold validity
  split <;> norm_num

/-- A validity cell is positive exactly on the unpadded region. -/
theorem validity_pos_iff (h w y x : Nat) :
    0 < validity h w y x ↔ (y < h ∧ x < w) := by
  unfold validity
  split <;> rename_i hc
  · simpa using hc
  · simpa using hc

/-- The mean `avg_pool2d` computes for a block is positive exactly when the
block's top-left corner lies inside the image's original region, i.e. when
the block overlaps the valid area at all. -/
theorem blockMean_pos_iff (h w p bi bj : Nat) (hp : 0 < p) :
    0 < blockMean h w p bi bj ↔ (bi * p < h ∧ bj * p < w) := by
  unfold blockMean
  have hD : (0 : ℚ) < ((p * p : ℕ) : ℚ) := by
    exact_mod_cast Nat.mul_pos hp hp
  have hdiv : ∀ S : ℚ, 0 < S / ((p * p : ℕ) : ℚ) ↔ 0 < S := by
    intro S
    constructor
    · intro hpos
      have hm := mul_pos hpos hD
      rwa [div_mul_cancel₀ _ (ne_of_gt hD)] at hm
    · intro hS
      exact div_pos hS hD
  rw [hdiv]
  have hinner : ∀ dy, ∀ x ∈ (List.range p).map fun dx =>
      validity h w (bi * p + dy) (bj * p + dx), 0 ≤ x := by
    intro dy x hx
    obtain ⟨dx, _, rfl⟩ := List.mem_map.mp hx
    exact validity_nonneg _ _ _ _
  have houter : ∀ x ∈ (List.range p).map fun dy =>
      ((List.range p).map fun dx =>
        validity h w (bi * p + dy) (bj * p + dx)).sum, 0 ≤ x := by
    intro x hx
    obtain ⟨dy, _, rfl⟩ := List.mem_map.mp hx
    exact List.sum_nonneg (hinner dy)
  rw [sum_pos_iff_exists _ houter]
  constructor
  · rintro ⟨x, hx, hxpos⟩
    obtain ⟨dy, hdy, rfl⟩ := List.mem_map.mp hx
    obtain ⟨y, hy, hypos⟩ := (sum_pos_iff_exists _ (hinner dy)).mp hxpos
    obtain ⟨dx, hdx, rfl⟩ := List.mem_map.mp hy
    have hov := (validity_pos_iff _ _ _ _).mp hypos
    exact ⟨lt_of_le_of_lt (Nat.le_add_right _ _) hov.1,
      lt_of_le_of_lt (Nat.le_add_right _ _) hov.2⟩
  · rintro ⟨hbi, hbj⟩
    refine ⟨_, List.mem_map.mpr ⟨0, List.mem_range.mpr hp, rfl⟩, ?_⟩
    rw [sum_pos_iff_exists _ (hinner 0)]
    refine ⟨_, List.mem_map.mpr ⟨0, List.mem_range.mpr hp, rfl⟩, ?_⟩
    rw [validity_pos_iff]
    simpa using ⟨hbi, hbj⟩

/-- The mask-row entry at the (1-shifted, row-major) position of a pooled
block is 0 when the block mean is positive and `-1e6` otherwise. -/
theorem maskRow_entry (h w H W p bi bj : Nat)
    (hbi : bi < H / p) (hbj : bj < W / p) :
    (maskRow h w H W p).getD (1 + (bi * (W / p) + bj)) 0 =
      if 0 < blockMean h w p bi bj then 0 else -1000000 := by
  unfold maskRow
  have hwb : 0 < W / p := by omega
  have hk : bi * (W / p) + bj < (H / p) * (W / p) := by
    have h1 : bi * (W / p) + bj < (bi + 1) * (W / p) := by
      rw [Nat.succ_mul]
      omega
    exact lt_of_lt_of_le h1 (Nat.mul_le_mul_right _ hbi)
  rw [Nat.add_comm 1 (bi * (W / p) + bj)]
  simp only [List.map_cons, List.getD_cons_succ, List.map_map]
  have hlen : bi * (W / p) + bj <
      ((List.range ((H / p) * (W / p))).map
        ((fun v : ℚ => (1 - v) * (-1000000)) ∘ fun k =>
          if 0 < blockMean h w p (k / (W / p)) (k % (W / p)) then (1 : ℚ)
          else 0)).length := by
    simpa using hk
  rw [List.getD_eq_getElem _ _ hlen, List.getElem_map, List.getElem_range]
  have hdivk : (bi * (W / p) + bj) / (W / p) = bi := by
    rw [Nat.mul_comm bi (W / p), Nat.mul_add_div hwb, Nat.div_eq_of_lt hbj,
      Nat.add_zero]
  have hmodk : (bi * (W / p) + bj) % (W / p) = bj := by
    rw [Nat.mul_comm bi (W / p), Nat.mul_add_mod, Nat.mod_eq_of_lt hbj]
  rw [Function.comp_apply, hdivk, hmodk]
  split <;> norm_num

/-- Inversion for a successful `create_attention_mask`: the result is the
stack of the per-image mask rows, the patch size is nonzero and fits in
both target dimensions, and the input list was nonempty. -/
theorem cam_ok_inv {ts : List Img} {H W p : Nat} {m : List (List ℚ)}
    (hm : create_attention_mask ts H W p = .ok m) :
    m = (ts.map fun im => maskRow im.h im.w H W p) ∧
    p ≠ 0 ∧ p ≤ H ∧ p ≤ W ∧ ts ≠ [] := by
  unfold create_attention_mask at hm
  split at hm
  · split at hm <;> simp at hm
  · rename_i hc
    push_neg at hc
    split at hm
    · simp at hm
    · rename_i hemp
      rw [Except.ok.injEq] at hm
      refine ⟨hm.symm, hc.1, by omega, by omega, ?_⟩
      intro hnil
      exact hemp (by simp [hnil])

/-- Inversion for a successful `from_tensors`: on both the fast path and
the general path, the built tensor is the list of padded images, the mask
is a successful `create_attention_mask` on the computed target size, and
`image_sizes` records the original extents. -/
theorem from_tensors_ok_inv {ts : List Img} {cfg : Config} {b : ImageList}
    (hb : ImageList.from_tensors ts cfg = .ok b) :
    ts ≠ [] ∧
    b.tensor = (ts.map fun im =>
      padGeneral im (targetSize ts cfg).1 (targetSize ts cfg).2 cfg.pad_value) ∧
    create_attention_mask ts (targetSize ts cfg).1 (targetSize ts cfg).2 16
      = .ok b.padding_mask ∧
    b.image_sizes = (ts.map fun im => (im.h, im.w)) := by
  match ts with
  | [] => simp [ImageList.from_tensors] at hb
  | t0 :: rest =>
    have hred : ImageList.from_tensors (t0 :: rest) cfg =
        (if (t0 :: rest).all fun t => t.lead == t0.lead then
          if rest.isEmpty then
            singleCore t0 (targetSize (t0 :: rest) cfg).1
              (targetSize (t0 :: rest) cfg).2 cfg.pad_value
          else
            generalCore (t0 :: rest) (targetSize (t0 :: rest) cfg).1
              (targetSize (t0 :: rest) cfg).2 cfg.pad_value t0.dev
        else .error .shapeMismatch) := rfl
    rw [hred] at hb
    split at hb
    · split at hb
      · rename_i he
        have hrest : rest = [] := List.isEmpty_iff.mp he
        subst hrest
        unfold singleCore at hb
        cases hm : create_attention_mask [t0] (targetSize [t0] cfg).1
            (targetSize [t0] cfg).2 16 with
        | error e => rw [hm] at hb; simp at hb
        | ok m =>
          rw [hm] at hb
          rw [Except.ok.injEq] at hb
          subst hb
          refine ⟨by simp, ?_, ?_, ?_⟩
          · simp [padSingle_eq_padGeneral]
          · rfl
          · simp
      · unfold generalCore at hb
        split at hb
        · cases hm : create_attention_mask (t0 :: rest)
              (targetSize (t0 :: rest) cfg).1 (targetSize (t0 :: rest) cfg).2
              16 with
          | error e => rw [hm] at hb; simp at hb
          | ok m =>
            rw [hm] at hb
            rw [Except.ok.injEq] at hb
            subst hb
            exact ⟨by simp, rfl, rfl, rfl⟩
        · simp at hb
    · simp at hb

/-- `ceilMul m s` rounds `m` up to the next multiple of `s`. -/
theorem ceilMul_spec (m s : Nat) (hs : 0 < s) :
    m ≤ ceilMul m s ∧ ceilMul m s % s = 0 ∧ ceilMul m s < m + s := by
  unfold ceilMul
  refine ⟨?_, Nat.mul_mod_left _ s, ?_⟩
  · have hdm := Nat.div_add_mod (m + (s - 1)) s
    have hlt : (m + (s - 1)) % s < s := Nat.mod_lt _ hs
    have hco : (m + (s - 1)) / s * s = s * ((m + (s - 1)) / s) := Nat.mul_comm _ s
    omega
  · have hle : (m + (s - 1)) / s * s ≤ m + (s - 1) := Nat.div_mul_le_self _ _
    omega

/-- With a positive `square_size`, the computed target size is the square
size rounded by the effective divisibility, independent of the inputs. -/
theorem targetSize_square {cfg : Config} {pc : PaddingConstraints}
    (hpc : cfg.padding_constraints = some pc)
    (hsq : 0 < pc.square_size.getD 0) (ts : List Img) :
    targetSize ts cfg =
      (roundIfDiv cfg (pc.square_size.getD 0).toNat,
       roundIfDiv cfg (pc.square_size.getD 0).toNat) := by
  have h : squareOf cfg = pc.square_size.getD 0 := by
    unfold squareOf
    rw [hpc]
  simp only [targetSize, h, if_pos hsq]

/-- With no square constraint, the computed target size is the rounded
componentwise max. -/
theorem targetSize_noSquare {cfg : Config} (hnsq : noSquare cfg)
    (ts : List Img) :
    targetSize ts cfg =
      (roundIfDiv cfg (listMax (ts.map Img.h)),
       roundIfDiv cfg (listMax (ts.map Img.w))) := by
  have h : ¬ 0 < squareOf cfg := not_lt.mpr hnsq
  simp only [targetSize, if_neg h]

/-- With an effective divisibility of at most 1, the rounding step is the
identity. -/
theorem roundIfDiv_le_one {cfg : Config} (hd : effDiv cfg ≤ 1) (m : Nat) :
    roundIfDiv cfg m = m := by
  unfold roundIfDiv
  rw [if_neg (not_lt.mpr hd)]

/-- With an effective divisibility `> 1`, the rounding step rounds up to
the next multiple. -/
theorem roundIfDiv_spec {cfg : Config} (hd : 1 < effDiv cfg) (m : Nat) :
    m ≤ roundIfDiv cfg m ∧ roundIfDiv cfg m % (effDiv cfg).toNat = 0 ∧
      roundIfDiv cfg m < m + (effDiv cfg).toNat := by
  unfold roundIfDiv
  rw [if_pos hd]
  exact ceilMul_spec m _ (by omega)

/-- `listMax` is the maximum of a list: an upper bound, attained whenever
the list is nonempty. -/
theorem listMax_spec (l : List Nat) :
    (∀ x ∈ l, x ≤ listMax l) ∧ (l = [] ∨ listMax l ∈ l) := by
  induction l with
  | nil => simp [listMax]
  | cons a t ih =>
    have hfold : listMax (a :: t) = max a (listMax t) := rfl
    constructor
    · intro x hx
      rcases List.mem_cons.mp hx with h | h
      · rw [hfold, h]
        exact Nat.le_max_left _ _
      · rw [hfold]
        exact le_trans (ih.1 x h) (Nat.le_max_right _ _)
    · right
      rcases ih.2 with ht | ht
      · subst ht
        simp [hfold, listMax]
      · rcases Nat.le_total a (listMax t) with hle | hle
        · rw [hfold, Nat.max_eq_right hle]
          exact List.mem_cons_of_mem _ ht
        · rw [hfold, Nat.max_eq_left hle]
          exact List.mem_cons_self _ _

/-- C1 (amended): a positive `squareSize` in `paddingConstraints` sets both
target dimensions to `squareSize`, but the divisibility rounding is NOT
restricted to an else-branch: the built tensor's spatial size is
`squareSize` rounded up to the next multiple of the effective
`sizeDivisibility` whenever that divisibility is `> 1`, and exactly
`(squareSize, squareSize)` only when the effective divisibility is at most
1 (or divides `squareSize`). -/
theorem claim_C1_square_then_rounding (ts : List Img) (cfg : Config)
    (pc : PaddingConstraints) (hpc : cfg.padding_constraints = some pc)
    (hsq : 0 < pc.square_size.getD 0) {b : ImageList}
    (hb : ImageList.from_tensors ts cfg = .ok b) :
    b.tensor.length = ts.length ∧
    isRect4 b.tensor (roundIfDiv cfg (pc.square_size.getD 0).toNat)
      (roundIfDiv cfg (pc.square_size.getD 0).toNat) ∧
    (effDiv cfg ≤ 1 →
      roundIfDiv cfg (pc.square_size.getD 0).toNat =
        (pc.square_size.getD 0).toNat) ∧
    (1 < effDiv cfg →
      (pc.square_size.getD 0).toNat ≤
          roundIfDiv cfg (pc.square_size.getD 0).toNat ∧
        roundIfDiv cfg (pc.square_size.getD 0).toNat % (effDiv cfg).toNat
          = 0 ∧
        roundIfDiv cfg (pc.square_size.getD 0).toNat <
          (pc.square_size.getD 0).toNat + (effDiv cfg).toNat) := by
  obtain ⟨hne, htensor, hmask, hsizes⟩ := from_tensors_ok_inv hb
  rw [targetSize_square hpc hsq] at htensor
  refine ⟨?_, ?_, fun hd => roundIfDiv_le_one hd _, fun hd => roundIfDiv_spec hd _⟩
  · rw [htensor]
    simp
  · rw [htensor]
    exact isRect4_map_padGeneral ts _ _ _

/-- Witness for C1: a 16x16 input with `square_size = 32` and
`size_divisibility = 5` builds a batch, and the theorem applies to it. -/
theorem claim_C1_square_then_rounding_witness :
    cfgSq32Div5.padding_constraints = some ⟨none, some 32⟩ ∧
    0 < ((⟨none, some 32⟩ : PaddingConstraints).square_size.getD 0) ∧
    ImageList.from_tensors demoTs cfgSq32Div5 = .ok batchSq32Div5 ∧
    batchSq32Div5.tensor.length = demoTs.length :=
  ⟨by decide, by decide, rfl,
    (claim_C1_square_then_rounding demoTs cfgSq32Div5 ⟨none, some 32⟩
      (by decide) (by decide) rfl).1⟩

/-- Counterexample for C1 as stated: under `square_size = 32` with
`size_divisibility = 5`, the built spatial size is `(35, 35)`, not
`(32, 32)` — the divisibility rounding is applied after the square
override, not only in an else-branch. -/
theorem claim_C1_counterexample :
    squareOf cfgSq32Div5 = 32 ∧
    (ImageList.from_tensors demoTs cfgSq32Div5).map spatialDims
      = .ok (35, 35) ∧
    (ImageList.from_tensors demoTs cfgSq32Div5).map spatialDims
      ≠ .ok (32, 32) :=
  ⟨by decide, by decide, by decide⟩

/-- C5: whenever the builder returns a batch, the attention mask has one
row per image and each row has `1 + floor(Hmax/16) * floor(Wmax/16)`
entries, the entry at position 0 (the reserved leading token) being 0. -/
theorem claim_C5_mask_shape (ts : List Img) (cfg : Config) {b : ImageList}
    (hb : ImageList.from_tensors ts cfg = .ok b) :
    b.padding_mask.length = ts.length ∧
    ∀ row ∈ b.padding_mask,
      row.length =
          1 + ((targetSize ts cfg).1 / 16) * ((targetSize ts cfg).2 / 16) ∧
        row.getD 0 0 = 0 := by
  obtain ⟨hne, htensor, hmask, hsizes⟩ := from_tensors_ok_inv hb
  obtain ⟨hm, h16, hH, hW, _⟩ := cam_ok_inv hmask
  rw [hm]
  constructor
  · simp
  · intro row hrow
    obtain ⟨im, _, rfl⟩ := List.mem_map.mp hrow
    exact ⟨maskRow_length _ _ _ _ _, maskRow_headD _ _ _ _ _⟩

/-- Witness for C5: the default-configuration batch over a 16x16 image has
a 1-row mask. -/
theorem claim_C5_mask_shape_witness :
    ImageList.from_tensors demoTs demoCfg = .ok demoBatch ∧
    demoBatch.padding_mask.length = demoTs.length :=
  ⟨rfl, (claim_C5_mask_shape demoTs demoCfg rfl).1⟩

/-- C6: with no square constraint, whenever the builder returns a batch its
tensor's last two dimensions are the componentwise maximum of the inputs'
spatial sizes, rounded up to the next multiple of the effective
`sizeDivisibility` when that is `> 1` and unrounded when it is at most 1;
`listMax` is genuinely the componentwise maximum (an attained upper
bound). -/
theorem claim_C6_dims_componentwise_max (ts : List Img) (cfg : Config)
    (hnsq : noSquare cfg) {b : ImageList}
    (hb : ImageList.from_tensors ts cfg = .ok b) :
    b.tensor.length = ts.length ∧
    isRect4 b.tensor (roundIfDiv cfg (listMax (ts.map Img.h)))
      (roundIfDiv cfg (listMax (ts.map Img.w))) ∧
    (∀ im ∈ ts, im.h ≤ listMax (ts.map Img.h) ∧
      im.w ≤ listMax (ts.map Img.w)) ∧
    (ts ≠ [] → listMax (ts.map Img.h) ∈ ts.map Img.h ∧
      listMax (ts.map Img.w) ∈ ts.map Img.w) ∧
    (effDiv cfg ≤ 1 →
      roundIfDiv cfg (listMax (ts.map Img.h)) = listMax (ts.map Img.h) ∧
      roundIfDiv cfg (listMax (ts.map Img.w)) = listMax (ts.map Img.w)) ∧
    (1 < effDiv cfg →
      listMax (ts.map Img.h) ≤ roundIfDiv cfg (listMax (ts.map Img.h)) ∧
      roundIfDiv cfg (listMax (ts.map Img.h)) % (effDiv cfg).toNat = 0 ∧
      listMax (ts.map Img.w) ≤ roundIfDiv cfg (listMax (ts.map Img.w)) ∧
      roundIfDiv cfg (listMax (ts.map Img.w)) % (effDiv cfg).toNat = 0) := by
  obtain ⟨hne, htensor, hmask, hsizes⟩ := from_tensors_ok_inv hb
  rw [targetSize_noSquare hnsq] at htensor
  refine ⟨?_, ?_, ?_, ?_, ?_, ?_⟩
  · rw [htensor]
    simp
  · rw [htensor]
    exact isRect4_map_padGeneral ts _ _ _
  · intro im him
    exact ⟨(listMax_spec (ts.map Img.h)).1 _ (List.mem_map_of_mem _ him),
      (listMax_spec (ts.map Img.w)).1 _ (List.mem_map_of_mem _ him)⟩
  · intro hne2
    have hh := (listMax_spec (ts.map Img.h)).2
    have hw := (listMax_spec (ts.map Img.w)).2
    rcases hh with hh | hh
    · exact absurd (List.map_eq_nil_iff.mp hh) hne2
    · rcases hw with hw | hw
      · exact absurd (List.map_eq_nil_iff.mp hw) hne2
      · exact ⟨hh, hw⟩
  · intro hd
    exact ⟨roundIfDiv_le_one hd _, roundIfDiv_le_one hd _⟩
  · intro hd
    exact ⟨(roundIfDiv_spec hd _).1, (roundIfDiv_spec hd _).2.1,
      (roundIfDiv_spec hd _).1, (roundIfDiv_spec hd _).2.1⟩

/-- Witness for C6: the default configuration has no square constraint, and
the theorem applies to the demo batch. -/
theorem claim_C6_dims_componentwise_max_witness :
    noSquare demoCfg ∧
    ImageList.from_tensors demoTs demoCfg = .ok demoBatch ∧
    demoBatch.tensor.length = demoTs.length :=
  ⟨by unfold noSquare; decide, rfl,
    (claim_C6_dims_componentwise_max demoTs demoCfg
      (by unfold noSquare; decide) rfl).1⟩

/-- C4: for every image and every block of the pooled grid, the mask value
at the block's (1-shifted, row-major) position is 0 exactly when the
block's mean validity is positive — equivalently, when the block overlaps
the image's original region — and exactly `-1e6 = -1000000` otherwise. -/
theorem claim_C4_block_mask_value (h w H W p bi bj : Nat) (hp : 0 < p)
    (hbi : bi < H / p) (hbj : bj < W / p) :
    (0 < blockMean h w p bi bj ↔ (bi * p < h ∧ bj * p < w)) ∧
    (maskRow h w H W p).getD (1 + (bi * (W / p) + bj)) 0 =
      (if 0 < blockMean h w p bi bj then 0 else -1000000) :=
  ⟨blockMean_pos_iff h w p bi bj hp, maskRow_entry h w H W p bi bj hbi hbj⟩

/-- Witness for C4: the single 16x16 block of a (10, 10) image padded to
(16, 16) overlaps the valid region. -/
theorem claim_C4_block_mask_value_witness :
    (0 < 16) ∧ (0 < 16 / 16) ∧
    (0 < blockMean 10 10 16 0 0 ↔ (0 * 16 < 10 ∧ 0 * 16 < 10)) :=
  ⟨by decide, by decide,
    (claim_C4_block_mask_value 10 10 16 16 16 0 0 (by decide) (by decide)
      (by decide)).1⟩

/-- The general path on a one-image list agrees with the fast path whenever
the image fits the target (the `copy_` step succeeds). -/
theorem generalCore_singleton (im : Img) (H W : Nat) (pv : ℚ)
    (hh : im.h ≤ H) (hw : im.w ≤ W) :
    generalCore [im] H W pv im.dev = singleCore im H W pv := by
  have hcpy : ([im].all fun t => copyOk t H W) = true := by
    simp only [List.all_cons, List.all_nil, Bool.and_true, copyOk,
      Nat.min_eq_left hh, Nat.min_eq_left hw]
    simp
  unfold generalCore
  rw [hcpy]
  cases hm : create_attention_mask [im] H W 16 with
  | error e =>
    unfold singleCore
    rw [hm]
    rfl
  | ok m =>
    unfold singleCore
    rw [hm]
    rw [padSingle_eq_padGeneral]
    rfl

/-- C2 (amended): on a one-element input the builder takes the fast path,
and the fast path agrees with the general path whenever the image fits the
computed target size (which is always the case except when a square
constraint forces a target smaller than the image; in that case the fast
path crops while the general path fails). -/
theorem claim_C2_fast_path_refines (im : Img) (cfg : Config)
    (hfith : im.h ≤ (targetSize [im] cfg).1)
    (hfitw : im.w ≤ (targetSize [im] cfg).2) :
    ImageList.from_tensors [im] cfg =
      singleCore im (targetSize [im] cfg).1 (targetSize [im] cfg).2
        cfg.pad_value ∧
    generalCore [im] (targetSize [im] cfg).1 (targetSize [im] cfg).2
      cfg.pad_value im.dev =
      singleCore im (targetSize [im] cfg).1 (targetSize [im] cfg).2
        cfg.pad_value := by
  constructor
  · have hred : ImageList.from_tensors [im] cfg =
        (if [im].all fun t => t.lead == im.lead then
          if ([] : List Img).isEmpty then
            singleCore im (targetSize [im] cfg).1 (targetSize [im] cfg).2
              cfg.pad_value
          else
            generalCore [im] (targetSize [im] cfg).1 (targetSize [im] cfg).2
              cfg.pad_value im.dev
        else .error .shapeMismatch) := rfl
    have hall : ([im].all fun t => t.lead == im.lead) = true := by simp
    rw [hred, hall]
    rfl
  · exact generalCore_singleton im _ _ cfg.pad_value hfith hfitw

/-- Witness for C2: a 16x16 image under the default configuration fits its
16x16 target, and both paths produce the same batch. -/
theorem claim_C2_fast_path_refines_witness :
    demoImg.h ≤ (targetSize [demoImg] demoCfg).1 ∧
    demoImg.w ≤ (targetSize [demoImg] demoCfg).2 ∧
    generalCore [demoImg] (targetSize [demoImg] demoCfg).1
      (targetSize [demoImg] demoCfg).2 demoCfg.pad_value demoImg.dev =
      singleCore demoImg (targetSize [demoImg] demoCfg).1
        (targetSize [demoImg] demoCfg).2 demoCfg.pad_value :=
  ⟨by decide, by decide,
    (claim_C2_fast_path_refines demoImg demoCfg (by decide) (by decide)).2⟩

/-- Counterexample for C2 as stated: with `square_size = 16` and a 20x20
image, the builder's fast path succeeds (cropping via negative padding)
while the general path fails in `copy_` — the two paths are not observably
identical for every configuration. -/
theorem claim_C2_counterexample :
    targetSize [im20] cfgSq16 = (16, 16) ∧
    (ImageList.from_tensors [im20] cfgSq16).isOk = true ∧
    (singleCore im20 16 16 0).isOk = true ∧
    generalCore [im20] 16 16 0 0 = .error .copyError :=
  ⟨by decide, by decide, by decide, by decide⟩

/-- Cropping the padded tensor of an image back to the image's own extent
recovers exactly the image data, provided the image fits the target. -/
theorem padGeneral_crop (im : Img) (H W : Nat) (v : ℚ)
    (hh : im.h ≤ H) (hw : im.w ≤ W) :
    ((padGeneral im H W v).map fun ch =>
      (ch.take im.h).map fun row => row.take im.w) = imgData im := by
  unfold padGeneral imgData
  rw [List.map_map]
  refine List.map_congr_left fun c _ => ?_
  dsimp only [Function.comp]
  rw [← List.map_take, List.take_range, Nat.min_eq_left hh, List.map_map]
  refine List.map_congr_left fun y hy => ?_
  rw [List.mem_range] at hy
  dsimp only [Function.comp]
  rw [← List.map_take, List.take_range, Nat.min_eq_left hw]
  refine List.map_congr_left fun x hx => ?_
  rw [List.mem_range] at hx
  rw [if_pos ⟨hy, hx⟩]

/-- C3 (amended): indexing a built batch at a valid index returns exactly
the indexed input image's data (shape and values), provided that image fits
the computed target size (always true except under a smaller forced square
size). -/
theorem claim_C3_roundtrip_exact (ts : List Img) (cfg : Config) (i : Nat)
    (hi : i < ts.length)
    (hfith : (ts.get ⟨i, hi⟩).h ≤ (targetSize ts cfg).1)
    (hfitw : (ts.get ⟨i, hi⟩).w ≤ (targetSize ts cfg).2)
    {b : ImageList} (hb : ImageList.from_tensors ts cfg = .ok b) :
    b.getitem i = .ok (imgData (ts.get ⟨i, hi⟩)) := by
  obtain ⟨hne, htensor, hmask, hsizes⟩ := from_tensors_ok_inv hb
  have hNlen : b.image_sizes.length = ts.length := by
    rw [hsizes]
    simp
  unfold ImageList.getitem
  rw [if_neg (by rw [hNlen]; omega)]
  have hidx : ((if (i : Int) < 0 then
      (i : Int) + (b.image_sizes.length : Int) else (i : Int)).toNat) = i := by
    rw [if_neg (by omega)]
    simp
  rw [hidx]
  have hsz : b.image_sizes.getD i (0, 0) =
      ((ts.get ⟨i, hi⟩).h, (ts.get ⟨i, hi⟩).w) := by
    rw [hsizes, List.getD_eq_getElem _ _ (by simpa using hi), List.getElem_map]
    rfl
  have hten : b.tensor.getD i [] =
      padGeneral (ts.get ⟨i, hi⟩) (targetSize ts cfg).1 (targetSize ts cfg).2
        cfg.pad_value := by
    rw [htensor, List.getD_eq_getElem _ _ (by simpa using hi), List.getElem_map]
    rfl
  unfold sliceAt
  rw [hsz, hten]
  rw [padGeneral_crop _ _ _ _ hfith hfitw]

/-- Witness for C3: cropping the demo batch at index 0 recovers the demo
image exactly. -/
theorem claim_C3_roundtrip_exact_witness :
    0 < demoTs.length ∧
    ImageList.from_tensors demoTs demoCfg = .ok demoBatch ∧
    demoBatch.getitem 0 = .ok (imgData demoImg) :=
  ⟨by decide, rfl,
    claim_C3_roundtrip_exact demoTs demoCfg 0 (by decide) (by decide)
      (by decide) rfl⟩

/-- Counterexample for C3 as stated: under `square_size = 16` a 20x20 image
is cropped to 16 rows, so indexing the built batch at 0 returns a tensor of
height 16, not the input's height 20. -/
theorem claim_C3_counterexample :
    im20.h = 20 ∧
    (ImageList.from_tensors [im20] cfgSq16).map
      (fun b => (b.getitem 0).map fun d => (d.getD 0 []).length)
      = .ok (.ok 16) ∧
    (ImageList.from_tensors [im20] cfgSq16).map
      (fun b => (b.getitem 0).map fun d => (d.getD 0 []).length)
      ≠ .ok (.ok 20) :=
  ⟨rfl, by decide, by decide⟩

/-- `create_attention_mask` on a nonempty list fails with the pooling error
when the patch does not fit the target. -/
theorem cam_poolError {ts : List Img} (hne : ts ≠ []) {H W p : Nat}
    (hp : p = 0 ∨ H < p ∨ W < p) :
    create_attention_mask ts H W p = .error .poolError := by
  unfold create_attention_mask
  rw [if_pos hp, if_neg (fun h => hne (List.isEmpty_iff.mp h))]

/-- `create_attention_mask` on a nonempty list succeeds when the patch fits
the target, returning the stacked per-image rows. -/
theorem cam_ok_of {ts : List Img} (hne : ts ≠ []) {H W p : Nat}
    (hp : ¬(p = 0 ∨ H < p ∨ W < p)) :
    create_attention_mask ts H W p =
      .ok (ts.map fun im => maskRow im.h im.w H W p) := by
  unfold create_attention_mask
  rw [if_neg hp, if_neg (fun h => hne (List.isEmpty_iff.mp h))]

/-- C7 (amended): the builder fails with `InvalidArgument` exactly on the
empty list and with `ShapeMismatch` exactly on mismatched leading
dimensions, but it does NOT succeed on all remaining inputs: it succeeds
exactly when, in addition, the computed target is at least the 16-pixel
patch size in both dimensions and (on the multi-image path) every image
fits its destination slice. -/
theorem claim_C7_failure_characterization (ts : List Img) (cfg : Config) :
    (ImageList.from_tensors ts cfg = .error .invalidArgument ↔ ts = []) ∧
    (ImageList.from_tensors ts cfg = .error .shapeMismatch ↔
      leadOK ts = false) ∧
    ((ImageList.from_tensors ts cfg).isOk = true ↔
      (ts ≠ [] ∧ leadOK ts = true ∧
        16 ≤ (targetSize ts cfg).1 ∧ 16 ≤ (targetSize ts cfg).2 ∧
        (ts.length = 1 ∨ ∀ im ∈ ts,
          copyOk im (targetSize ts cfg).1 (targetSize ts cfg).2 = true))) := by
  match ts with
  | [] =>
    refine ⟨by simp [ImageList.from_tensors], ?_, ?_⟩
    · simp [ImageList.from_tensors, leadOK]
    · simp [ImageList.from_tensors, Except.isOk, Except.toBool]
  | t0 :: rest =>
    have hred : ImageList.from_tensors (t0 :: rest) cfg =
        (if (t0 :: rest).all fun t => t.lead == t0.lead then
          if rest.isEmpty then
            singleCore t0 (targetSize (t0 :: rest) cfg).1
              (targetSize (t0 :: rest) cfg).2 cfg.pad_value
          else
            generalCore (t0 :: rest) (targetSize (t0 :: rest) cfg).1
              (targetSize (t0 :: rest) cfg).2 cfg.pad_value t0.dev
        else .error .shapeMismatch) := rfl
    have hlead : leadOK (t0 :: rest) =
        ((t0 :: rest).all fun t => t.lead == t0.lead) := rfl
    rw [hred, hlead]
    cases hc : ((t0 :: rest).all fun t => t.lead == t0.lead) with
    | false =>
      refine ⟨by simp, by simp, ?_⟩
      simp [Except.isOk, Except.toBool]
    | true =>
      cases rest with
      | nil =>
        by_cases hpool : ((targetSize [t0] cfg).1 < 16 ∨
            (targetSize [t0] cfg).2 < 16)
        · have hval : singleCore t0 (targetSize [t0] cfg).1
              (targetSize [t0] cfg).2 cfg.pad_value = .error .poolError := by
            unfold singleCore
            rw [cam_poolError (by simp) (by omega)]
          refine ⟨by simp [hval], by simp [hval], ?_⟩
          simp only [List.isEmpty_nil, if_true, hval, Except.isOk,
            Except.toBool]
          constructor
          · intro h
            simp at h
          · rintro ⟨_, _, hH, hW, _⟩
            omega
        · have hval : singleCore t0 (targetSize [t0] cfg).1
              (targetSize [t0] cfg).2 cfg.pad_value =
              .ok ⟨[padSingle t0 (targetSize [t0] cfg).1
                  (targetSize [t0] cfg).2 cfg.pad_value],
                [t0].map fun im => maskRow im.h im.w (targetSize [t0] cfg).1
                  (targetSize [t0] cfg).2 16,
                [(t0.h, t0.w)], t0.dev⟩ := by
            unfold singleCore
            rw [cam_ok_of (by simp) (by omega)]
          refine ⟨by simp [hval], by simp [hval], ?_⟩
          simp only [List.isEmpty_nil, if_true, hval, Except.isOk,
            Except.toBool]
          constructor
          · intro _
            exact ⟨by simp, trivial, by omega, by omega, Or.inl rfl⟩
          · intro _
            trivial
      | cons t1 rest2 =>
        cases hcopy : ((t0 :: t1 :: rest2).all fun im =>
            copyOk im (targetSize (t0 :: t1 :: rest2) cfg).1
              (targetSize (t0 :: t1 :: rest2) cfg).2) with
        | false =>
          have hval : generalCore (t0 :: t1 :: rest2)
              (targetSize (t0 :: t1 :: rest2) cfg).1
              (targetSize (t0 :: t1 :: rest2) cfg).2 cfg.pad_value t0.dev =
              .error .copyError := by
            unfold generalCore
            rw [hcopy]
            rfl
          refine ⟨by simp [hval], by simp [hval], ?_⟩
          simp only [List.isEmpty_cons, if_false, hval, Except.isOk,
            Except.toBool, Bool.false_eq_true]
          constructor
          · intro h
            simp at h
          · rintro ⟨_, _, _, _, hlast | hlast⟩
            · simp at hlast
            · have : ((t0 :: t1 :: rest2).all fun im =>
                  copyOk im (targetSize (t0 :: t1 :: rest2) cfg).1
                    (targetSize (t0 :: t1 :: rest2) cfg).2) = true :=
                List.all_eq_true.mpr hlast
              rw [hcopy] at this
              simp at this
        | true =>
          by_cases hpool : ((targetSize (t0 :: t1 :: rest2) cfg).1 < 16 ∨
              (targetSize (t0 :: t1 :: rest2) cfg).2 < 16)
          · have hval : generalCore (t0 :: t1 :: rest2)
                (targetSize (t0 :: t1 :: rest2) cfg).1
                (targetSize (t0 :: t1 :: rest2) cfg).2 cfg.pad_value t0.dev =
                .error .poolError := by
              unfold generalCore
              rw [hcopy, cam_poolError (by simp) (by omega)]
              rfl
            refine ⟨by simp [hval], by simp [hval], ?_⟩
            simp only [List.isEmpty_cons, if_false, hval, Except.isOk,
              Except.toBool, Bool.false_eq_true]
            constructor
            · intro h
              simp at h
            · rintro ⟨_, _, hH, hW, _⟩
              omega
          · have hval : generalCore (t0 :: t1 :: rest2)
                (targetSize (t0 :: t1 :: rest2) cfg).1
                (targetSize (t0 :: t1 :: rest2) cfg).2 cfg.pad_value t0.dev =
                .ok ⟨(t0 :: t1 :: rest2).map fun im =>
                    padGeneral im (targetSize (t0 :: t1 :: rest2) cfg).1
                      (targetSize (t0 :: t1 :: rest2) cfg).2 cfg.pad_value,
                  (t0 :: t1 :: rest2).map fun im =>
                    maskRow im.h im.w (targetSize (t0 :: t1 :: rest2) cfg).1
                      (targetSize (t0 :: t1 :: rest2) cfg).2 16,
                  (t0 :: t1 :: rest2).map fun im => (im.h, im.w),
                  t0.dev⟩ := by
              unfold generalCore
              rw [hcopy, cam_ok_of (by simp) (by omega)]
              rfl
            refine ⟨by simp [hval], by simp [hval], ?_⟩
            simp only [List.isEmpty_cons, if_false, hval, Except.isOk,
              Except.toBool, Bool.false_eq_true]
            constructor
            · intro _
              exact ⟨by simp, trivial, by omega, by omega,
                Or.inr (List.all_eq_true.mp hcopy)⟩
            · intro _
              trivial

/-- Counterexample for C7 as stated: a nonempty, leading-dim-consistent
input (a single 10x10 image) still makes the builder fail, because
`avg_pool2d` rejects an input smaller than its 16-pixel kernel. -/
theorem claim_C7_counterexample :
    [tiny] ≠ [] ∧ leadOK [tiny] = true ∧
    ImageList.from_tensors [tiny] demoCfg = .error .poolError :=
  ⟨List.cons_ne_nil _ _, by decide, by decide⟩

/-- C8 (amended): the accessor fails with `IndexOutOfRange` exactly outside
`[-N, N)` (not outside `[0, N)`): an index in `[0, N)` returns the
unpadded slice at that index, and a negative index in `[-N, 0)` follows
Python semantics and returns the slice at `N + i` instead of failing. -/
theorem claim_C8_getitem_contract (b : ImageList) (i : Int) :
    (b.getitem i = .error .indexOutOfRange ↔
      (i < -(b.image_sizes.length : Int) ∨
        (b.image_sizes.length : Int) ≤ i)) ∧
    (0 ≤ i → i < (b.image_sizes.length : Int) →
      b.getitem i = .ok (sliceAt b i.toNat)) ∧
    (-(b.image_sizes.length : Int) ≤ i → i < 0 →
      b.getitem i = .ok (sliceAt b
        (i + (b.image_sizes.length : Int)).toNat)) := by
  unfold ImageList.getitem
  refine ⟨?_, ?_, ?_⟩
  · constructor
    · intro hcase
      by_contra hcon
      rw [if_neg hcon] at hcase
      simp at hcase
    · intro hcase
      rw [if_pos hcase]
  · intro h0 hN
    rw [if_neg (by omega), if_neg (by omega)]
  · intro hn h0
    rw [if_neg (by omega), if_pos h0]

/-- Witness for C8: on the demo batch (one image), index `-1` is accepted
and returns the slice at position 0. -/
theorem claim_C8_getitem_contract_witness :
    (-(demoBatch.image_sizes.length : Int) ≤ -1 ∧ (-1 : Int) < 0) ∧
    demoBatch.getitem (-1) = .ok (sliceAt demoBatch
      ((-1 : Int) + (demoBatch.image_sizes.length : Int)).toNat) :=
  ⟨⟨by decide, by decide⟩,
    (claim_C8_getitem_contract demoBatch (-1)).2.2 (by decide) (by decide)⟩

/-- Counterexample for C8 as stated: `get(-1)` on a built batch does not
fail with `IndexOutOfRange`; it succeeds (Python negative indexing). -/
theorem claim_C8_counterexample :
    ((-1 : Int) < 0) ∧ demoBatch.image_sizes.length = 1 ∧
    (demoBatch.getitem (-1)).isOk = true ∧
    demoBatch.getitem (-1) ≠ .error .indexOutOfRange :=
  ⟨by decide, by decide, by decide, by decide⟩

/-- C9: the device transfer is a pure factory: the new batch holds the same
tensor values, the same mask and the same sizes list, with only the device
changed to the target; the original batch is an immutable value and is not
affected (immutability is intrinsic to this modelling, mirroring that the
source constructs a fresh `ImageList` and mutates nothing). -/
theorem claim_C9_to_pure_frame (b : ImageList) (d : Nat) :
    (b.to d).tensor = b.tensor ∧ (b.to d).padding_mask = b.padding_mask ∧
    (b.to d).image_sizes = b.image_sizes ∧ (b.to d).dev = d :=
  ⟨rfl, rfl, rfl, rfl⟩

/-- The mask component of the fast path is exactly the attention-mask
computation. -/
theorem singleCore_mask (t0 : Img) (H W : Nat) (pv : ℚ) :
    (singleCore t0 H W pv).map ImageList.padding_mask =
      create_attention_mask [t0] H W 16 := by
  unfold singleCore
  cases hm : create_attention_mask [t0] H W 16 <;> rfl

/-- The mask component of the general path: the copy gate, then the
attention-mask computation. -/
theorem generalCore_mask (ts : List Img) (H W : Nat) (pv : ℚ) (dv : Nat) :
    (generalCore ts H W pv dv).map ImageList.padding_mask =
      (if ts.all fun im => copyOk im H W then
        create_attention_mask ts H W 16
      else .error .copyError) := by
  unfold generalCore
  cases hcp : (ts.all fun im => copyOk im H W) with
  | false => rfl
  | true => cases hm : create_attention_mask ts H W 16 <;> rfl

/-- The attention-mask computation factors through the input shapes. -/
theorem cam_eq_camS (ts : List Img) (H W p : Nat) :
    create_attention_mask ts H W p = camS (ts.map shapeOf) H W p := by
  unfold create_attention_mask camS
  have hie : (ts.map shapeOf).isEmpty = ts.isEmpty := by cases ts <;> rfl
  rw [hie, List.map_map]
  rfl

/-- The whole mask component of the builder factors through the input
shapes: pixel values cannot influence the produced mask (nor whether and
how the builder fails). -/
theorem from_tensors_mask_factors (ts : List Img) (cfg : Config) :
    (ImageList.from_tensors ts cfg).map ImageList.padding_mask =
      maskFromShapes (ts.map shapeOf) cfg := by
  match ts with
  | [] => rfl
  | t0 :: rest =>
    have hred : ImageList.from_tensors (t0 :: rest) cfg =
        (if (t0 :: rest).all fun t => t.lead == t0.lead then
          if rest.isEmpty then
            singleCore t0 (targetSize (t0 :: rest) cfg).1
              (targetSize (t0 :: rest) cfg).2 cfg.pad_value
          else
            generalCore (t0 :: rest) (targetSize (t0 :: rest) cfg).1
              (targetSize (t0 :: rest) cfg).2 cfg.pad_value t0.dev
        else .error .shapeMismatch) := rfl
    have hredS : maskFromShapes ((t0 :: rest).map shapeOf) cfg =
        (if ((t0 :: rest).map shapeOf).all fun s => s.1 == (shapeOf t0).1 then
          if (rest.map shapeOf).isEmpty then
            camS [shapeOf t0] (targetSizeS ((t0 :: rest).map shapeOf) cfg).1
              (targetSizeS ((t0 :: rest).map shapeOf) cfg).2 16
          else
            if ((t0 :: rest).map shapeOf).all fun s =>
                copyOkS s (targetSizeS ((t0 :: rest).map shapeOf) cfg).1
                  (targetSizeS ((t0 :: rest).map shapeOf) cfg).2 then
              camS ((t0 :: rest).map shapeOf)
                (targetSizeS ((t0 :: rest).map shapeOf) cfg).1
                (targetSizeS ((t0 :: rest).map shapeOf) cfg).2 16
            else .error .copyError
        else .error .shapeMismatch) := rfl
    have htgt : targetSizeS ((t0 :: rest).map shapeOf) cfg =
        targetSize (t0 :: rest) cfg := by
      unfold targetSizeS targetSize
      rw [List.map_map, List.map_map]
      rfl
    have hcond : (((t0 :: rest).map shapeOf).all fun s =>
        s.1 == (shapeOf t0).1)
        = ((t0 :: rest).all fun t => t.lead == t0.lead) := by
      rw [all_map_eq]
      rfl
    have hie : (rest.map shapeOf).isEmpty = rest.isEmpty := by
      cases rest <;> rfl
    rw [hredS, htgt, hcond, hie, hred]
    cases hc : ((t0 :: rest).all fun t => t.lead == t0.lead) with
    | false => rfl
    | true =>
      cases hrest : rest.isEmpty with
      | true =>
        rw [if_pos rfl, if_pos rfl, singleCore_mask, cam_eq_camS,
          if_pos rfl, if_pos rfl]
        rfl
      | false =>
        rw [if_pos rfl, if_pos rfl,
          if_neg (show ¬(false = true) by simp),
          if_neg (show ¬(false = true) by simp), generalCore_mask]
        have hcpy : (((t0 :: rest).map shapeOf).all fun s =>
            copyOkS s (targetSize (t0 :: rest) cfg).1
              (targetSize (t0 :: rest) cfg).2)
            = ((t0 :: rest).all fun im =>
              copyOk im (targetSize (t0 :: rest) cfg).1
                (targetSize (t0 :: rest) cfg).2) := by
          rw [all_map_eq]
          rfl
        rw [hcpy]
        cases hcp : ((t0 :: rest).all fun im =>
            copyOk im (targetSize (t0 :: rest) cfg).1
              (targetSize (t0 :: rest) cfg).2) with
        | false =>
          rw [if_neg (show ¬(false = true) by simp),
            if_neg (show ¬(false = true) by simp)]
        | true =>
          rw [if_pos rfl, if_pos rfl, cam_eq_camS]

/-- C10: the attention mask depends only on the input images' shapes and
the configuration, never on pixel values: two runs on inputs with equal
shape lists produce equal mask outcomes (including equal failure, as an
`Except`-level equality of the mask projection). -/
theorem claim_C10_mask_shape_only (ts ts' : List Img) (cfg : Config)
    (hsh : ts.map shapeOf = ts'.map shapeOf) :
    (ImageList.from_tensors ts cfg).map ImageList.padding_mask =
      (ImageList.from_tensors ts' cfg).map ImageList.padding_mask := by
  rw [from_tensors_mask_factors, from_tensors_mask_factors, hsh]

/-- Witness for C10: two 16x16 images with different pixel values have
equal shape lists, so the builder produces equal masks for them. -/
theorem claim_C10_mask_shape_only_witness :
    demoTs.map shapeOf = [demoImg2].map shapeOf ∧
    (ImageList.from_tensors demoTs demoCfg).map ImageList.padding_mask =
      (ImageList.from_tensors [demoImg2] demoCfg).map ImageList.padding_mask :=
  ⟨by decide, claim_C10_mask_shape_only demoTs [demoImg2] demoCfg (by decide)⟩

end VGT
